import Mathlib

/-!
Shallow embedding of the invoice ledger and edit-request workflow of the
surety-app repository (src/app/business/page.js, src/app/customer/page.js).

The persisted tables (invoices, invoice_items, invoice_edit_requests,
payments, customers, business_customers) are modelled as lists of records;
each dashboard handler becomes a function from a database state to a
database state.  Monetary amounts and quantities are rationals (the
JavaScript values are numbers; every arithmetic identity proved here uses
the same operations in the same order as the source, so the identities are
exact in both semantics).  Database writes that the source fires without
checking the returned error are given explicit failure flags so that the
behaviour of a partially failing mutation can be stated.
-/

namespace Surety

/-- Invoice status column: the source writes the strings sent, paid, overdue. -/
inductive InvoiceStatus
  | sent
  | paid
  | overdue
deriving DecidableEq, Repr

/-- Edit request status column: pending, approved, rejected. -/
inductive RequestStatus
  | pending
  | approved
  | rejected
deriving DecidableEq, Repr

/-- One row of the invoice-creation form after parseFloat: item_name, quantity, unit_price. -/
structure InputItem where
  item_name : String
  quantity : ℚ
  unit_price : ℚ
deriving DecidableEq, Repr

/-- A line item as carried in the JSONB snapshots of an edit request and in
the customer edit modal: name, quantity, unit price and the stored total_price. -/
structure LineItem where
  item_name : String
  quantity : ℚ
  unit_price : ℚ
  total_price : ℚ
deriving DecidableEq, Repr

/-- One row of the invoice_items table. -/
structure ItemRow where
  invoice_id : ℕ
  item_name : String
  quantity : ℚ
  unit_price : ℚ
  total_price : ℚ
deriving DecidableEq, Repr

/-- Projection of an invoice_items row to the JSONB line-item shape used by
the edit modal and the request snapshots. -/
def ItemRow.toLineItem (r : ItemRow) : LineItem :=
  ⟨r.item_name, r.quantity, r.unit_price, r.total_price⟩

/-- One row of the invoices table.  Dates are day numbers. -/
structure Invoice where
  id : ℕ
  business_id : ℕ
  customer_id : ℕ
  invoice_number : String
  invoice_date : ℤ
  due_date : ℤ
  total_amount : ℚ
  paid_amount : ℚ
  status : InvoiceStatus
  updated_at : Option ℤ
deriving DecidableEq, Repr

/-- One row of the invoice_edit_requests table. -/
structure EditRequest where
  id : ℕ
  invoice_id : ℕ
  requested_by : ℕ
  original_items : List LineItem
  requested_items : List LineItem
  status : RequestStatus
  created_at : ℤ
  reviewed_at : Option ℤ
deriving DecidableEq, Repr

/-- One row of the payments table. -/
structure Payment where
  invoice_id : ℕ
  amount : ℚ
  payment_date : ℤ
  payment_method : String
deriving DecidableEq, Repr

/-- One row of the customers table (fields the dashboards read). -/
structure Customer where
  id : ℕ
  customer_name : String
  phone_number : String
  email : String
  address : String
deriving DecidableEq, Repr

/-- One row of the business_customers link table. -/
structure BusinessCustomer where
  business_id : ℕ
  customer_id : ℕ
  credit_limit : ℚ
  payment_terms_days : ℤ
deriving DecidableEq, Repr

/-- The persisted database state. -/
structure DB where
  customers : List Customer
  business_customers : List BusinessCustomer
  invoices : List Invoice
  invoice_items : List ItemRow
  edit_requests : List EditRequest
  payments : List Payment
deriving DecidableEq, Repr

def emptyDB : DB := ⟨[], [], [], [], [], []⟩

/-! ### Observers (queries used by the dashboards and by the statements) -/

/-- The invoice_items rows belonging to one invoice, in storage order
(the items join in loadData). -/
def rowsOf (db : DB) (invId : ℕ) : List ItemRow :=
  db.invoice_items.filter (fun r => decide (r.invoice_id = invId))

/-- Sum over an invoice's stored line items of quantity × unit_price:
the quantity the specification's total invariant talks about. -/
def ledgerSum (db : DB) (invId : ℕ) : ℚ :=
  ((rowsOf db invId).map (fun r => r.quantity * r.unit_price)).sum

/-- Look an invoice up by primary key. -/
def invoiceById (db : DB) (invId : ℕ) : Option Invoice :=
  db.invoices.find? (fun inv => decide (inv.id = invId))

/-- Look an edit request up by primary key. -/
def requestById (db : DB) (reqId : ℕ) : Option EditRequest :=
  db.edit_requests.find? (fun r => decide (r.id = reqId))

/-- Sum over snapshot line items of quantity × unit_price (the claim-side
formula for the total of a requested item list). -/
def itemsQuantityPriceSum (items : List LineItem) : ℚ :=
  (items.map (fun it => it.quantity * it.unit_price)).sum

/-! ### handleAddCustomer (business/page.js, lines 153 to 216) -/

/-- Phone normalisation at the top of handleAddCustomer. -/
def formatPhone (phone : String) : String :=
  if phone.startsWith ("+") then phone else ("+91" ++ phone)

/-- handleAddCustomer: find or create the customer row by phone, then insert
a business_customers link row carrying credit_limit and payment_terms_days.
Success path (the handler returns early on an insert error without writing
anything further). -/
def handleAddCustomer (db : DB) (businessId : ℕ) (phone name email address : String)
    (creditLimit : ℚ) (paymentTerms : ℤ) (newCustomerId : ℕ) : DB :=
  let formattedPhone := formatPhone phone
  match db.customers.find? (fun c => decide (c.phone_number = formattedPhone)) with
  | some existing =>
      { db with business_customers :=
          db.business_customers ++ [⟨businessId, existing.id, creditLimit, paymentTerms⟩] }
  | none =>
      { db with
          customers := db.customers ++ [⟨newCustomerId, name, formattedPhone, email, address⟩],
          business_customers :=
            db.business_customers ++ [⟨businessId, newCustomerId, creditLimit, paymentTerms⟩] }

/-! ### handleCreateInvoice (business/page.js, lines 219 to 284) -/

/-- The reduce computing the invoice total over the form items. -/
def invoiceFormTotal (items : List InputItem) : ℚ :=
  items.foldl (fun sum it => sum + it.quantity * it.unit_price) 0

/-- The payment_terms_days select keyed on the business-customer pair
(single row or absent). -/
def lookupTerms (db : DB) (businessId customerId : ℕ) : Option ℤ :=
  (db.business_customers.find?
      (fun bc => decide (bc.business_id = businessId ∧ bc.customer_id = customerId))).map
    BusinessCustomer.payment_terms_days

/-- JavaScript `o || d` on an optional integer column: null, undefined and 0
are all falsy, so a configured value of 0 also yields the default. -/
def jsOr (o : Option ℤ) (d : ℤ) : ℤ :=
  match o with
  | none => d
  | some t => if t = 0 then d else t

/-- handleCreateInvoice: computes the total by reduce, looks payment terms up
(`bcData?.payment_terms_days || 30`), derives the due date, inserts the
invoice row with status sent and paid_amount 0, then inserts one
invoice_items row per form item with total_price = quantity × unit_price.
Success path; the handler performs no validation of the item list. -/
def handleCreateInvoice (db : DB) (businessId customerId : ℕ) (invoiceDate : ℤ)
    (invoiceItems : List InputItem) (newInvoiceId : ℕ) (invoiceNumber : String) : DB :=
  let total := invoiceFormTotal invoiceItems
  let paymentTerms := jsOr (lookupTerms db businessId customerId) 30
  let dueDate := invoiceDate + paymentTerms
  let invoice : Invoice :=
    { id := newInvoiceId, business_id := businessId, customer_id := customerId,
      invoice_number := invoiceNumber, invoice_date := invoiceDate, due_date := dueDate,
      total_amount := total, paid_amount := 0, status := InvoiceStatus.sent,
      updated_at := none }
  let items := invoiceItems.map (fun it =>
    ItemRow.mk newInvoiceId it.item_name it.quantity it.unit_price
      (it.quantity * it.unit_price))
  { db with invoices := db.invoices ++ [invoice],
            invoice_items := db.invoice_items ++ items }

/-! ### markAsPaid (business/page.js, lines 304 to 329) -/

/-- markAsPaid: update the invoice row to status paid with
paid_amount = totalAmount, then insert a payments row (the payment insert's
error is ignored by the source).  Success path of the first update; the
function performs no check of the invoice's current status. -/
def markAsPaid (db : DB) (invoiceId : ℕ) (totalAmount : ℚ) (today : ℤ) : DB :=
  let db1 := { db with invoices := db.invoices.map (fun inv : Invoice =>
    if inv.id = invoiceId then
      { inv with status := InvoiceStatus.paid, paid_amount := totalAmount }
    else inv) }
  { db1 with payments :=
      db1.payments ++ [⟨invoiceId, totalAmount, today, ("Manual")⟩] }

/-! ### The customer edit modal (customer/page.js, lines 120 to 165) -/

/-- Which input the customer changed in updateEditedItem. -/
inductive EditField
  | quantity
  | unit_price
deriving DecidableEq, Repr

/-- One updateEditedItem call: index of the row and the new value. -/
structure ItemEdit where
  index : ℕ
  field : EditField
  value : ℚ
deriving DecidableEq, Repr

/-- updateEditedItem: set the changed field and recompute total_price as
quantity × unit_price of the updated row. -/
def updateEditedItem : List LineItem → ℕ → EditField → ℚ → List LineItem
  | [], _, _, _ => []
  | it :: rest, 0, EditField.quantity, v =>
      { it with quantity := v, total_price := v * it.unit_price } :: rest
  | it :: rest, 0, EditField.unit_price, v =>
      { it with unit_price := v, total_price := it.quantity * v } :: rest
  | it :: rest, Nat.succ n, f, v => it :: updateEditedItem rest n f v

/-- The edited item list the modal submits: the cloned invoice items after a
sequence of updateEditedItem calls. -/
def applyEdits (items : List LineItem) (edits : List ItemEdit) : List LineItem :=
  edits.foldl (fun acc e => updateEditedItem acc e.index e.field e.value) items

/-- submitEditRequest: insert one invoice_edit_requests row with the
invoice's current items as original_items, the edited items verbatim as
requested_items, and status pending.  The function performs no check of the
invoice's status. -/
def submitEditRequest (db : DB) (invoiceId requestedBy : ℕ)
    (editedItems : List LineItem) (newRequestId : ℕ) (now : ℤ) : DB :=
  let originalItems := (rowsOf db invoiceId).map ItemRow.toLineItem
  { db with edit_requests := db.edit_requests ++
      [{ id := newRequestId, invoice_id := invoiceId, requested_by := requestedBy,
         original_items := originalItems, requested_items := editedItems,
         status := RequestStatus.pending, created_at := now, reviewed_at := none }] }

/-! ### approveEditRequest (business/page.js, lines 332 to 377) -/

/-- The reduce computing the new invoice total over the requested items:
it sums the stored total_price fields. -/
def requestedTotal (items : List LineItem) : ℚ :=
  items.foldl (fun sum it => sum + it.total_price) 0

/-- Which of the four sequential writes of approveEditRequest fail.  The
source never inspects the returned errors, so a failed write leaves the
table unchanged while every later write still executes. -/
structure ApproveFailure where
  deleteItemsFails : Bool
  insertItemsFails : Bool
  updateInvoiceFails : Bool
  updateRequestFails : Bool
deriving DecidableEq, Repr

/-- Every write succeeds. -/
def noFailure : ApproveFailure := ⟨false, false, false, false⟩

/-- approveEditRequest: (a select of the invoice row whose result is never
used, then) delete the invoice's invoice_items rows, insert one row per
requested item copying its stored total_price, update the invoice's
total_amount to the sum of the requested total_price fields, and mark the
request approved with a review timestamp.  No status check, no error check,
no rollback. -/
def approveEditRequest (db : DB) (requestId invoiceId : ℕ)
    (requestedItems : List LineItem) (now : ℤ) (f : ApproveFailure) : DB :=
  let db1 := if f.deleteItemsFails then db else
    { db with invoice_items :=
        db.invoice_items.filter (fun r => decide (r.invoice_id ≠ invoiceId)) }
  let db2 := if f.insertItemsFails then db1 else
    { db1 with invoice_items := db1.invoice_items ++ requestedItems.map (fun it =>
        ItemRow.mk invoiceId it.item_name it.quantity it.unit_price it.total_price) }
  let newTotal := requestedTotal requestedItems
  let db3 := if f.updateInvoiceFails then db2 else
    { db2 with invoices := db2.invoices.map (fun inv : Invoice =>
        if inv.id = invoiceId then
          { inv with total_amount := newTotal, updated_at := some now }
        else inv) }
  if f.updateRequestFails then db3 else
    { db3 with edit_requests := db3.edit_requests.map (fun r : EditRequest =>
        if r.id = requestId then
          { r with status := RequestStatus.approved, reviewed_at := some now }
        else r) }

/-! ### rejectEditRequest (business/page.js, lines 380 to 390) -/

/-- rejectEditRequest: a single update of the request row to status rejected
with a review timestamp; no other table is touched. -/
def rejectEditRequest (db : DB) (requestId : ℕ) (now : ℤ) : DB :=
  { db with edit_requests := db.edit_requests.map (fun r : EditRequest =>
      if r.id = requestId then
        { r with status := RequestStatus.rejected, reviewed_at := some now }
      else r) }

/-! ### loadData's edit-request query (business/page.js, lines 73 to 110) -/

/-- The ids of the business's invoices, as collected by the invoices query. -/
def businessInvoiceIds (db : DB) (businessId : ℕ) : List ℕ :=
  (db.invoices.filter (fun inv => decide (inv.business_id = businessId))).map Invoice.id

/-- The edit-request list loadData produces: status pending and invoice_id
among the business's invoices. -/
def pendingRequestsFor (db : DB) (businessId : ℕ) : List EditRequest :=
  db.edit_requests.filter (fun r =>
    decide (r.status = RequestStatus.pending ∧ r.invoice_id ∈ businessInvoiceIds db businessId))

/-! ### Consistency predicates and the reachable-state invariant -/

/-- A stored invoice_items row carries total_price = quantity × unit_price. -/
def ItemRow.consistent (r : ItemRow) : Prop :=
  r.total_price = r.quantity * r.unit_price

/-- A snapshot line item carries total_price = quantity × unit_price. -/
def LineItem.consistent (it : LineItem) : Prop :=
  it.total_price = it.quantity * it.unit_price

/-- The ledger invariant of the specification, together with the auxiliary
facts needed to push it through every dashboard handler. -/
structure Inv (db : DB) : Prop where
  rows : ∀ r ∈ db.invoice_items, r.consistent
  totals : ∀ inv ∈ db.invoices, inv.total_amount = ledgerSum db inv.id
  requests : ∀ q ∈ db.edit_requests, ∀ it ∈ q.requested_items, it.consistent
  owned : ∀ r ∈ db.invoice_items, ∃ inv ∈ db.invoices, inv.id = r.invoice_id

/-- One successful dashboard action, with the preconditions under which the
rendered UI fires it: markPaid and submitRequest buttons are shown only for
non-paid invoices, approve and reject buttons only for requests in the
pending-only list loadData builds, and the invoice id of a fresh invoice is
a fresh primary key. -/
inductive Step : DB → DB → Prop
  | addCustomer (db : DB) (businessId : ℕ) (phone name email address : String)
      (creditLimit : ℚ) (terms : ℤ) (newCustomerId : ℕ) :
      Step db (handleAddCustomer db businessId phone name email address creditLimit terms
        newCustomerId)
  | createInvoice (db : DB) (businessId customerId : ℕ) (invoiceDate : ℤ)
      (items : List InputItem) (newInvoiceId : ℕ) (invoiceNumber : String)
      (hcust : ∃ bc ∈ db.business_customers,
        bc.business_id = businessId ∧ bc.customer_id = customerId)
      (hfresh : ∀ inv ∈ db.invoices, inv.id ≠ newInvoiceId) :
      Step db (handleCreateInvoice db businessId customerId invoiceDate items newInvoiceId
        invoiceNumber)
  | markPaid (db : DB) (inv : Invoice) (today : ℤ)
      (hmem : inv ∈ db.invoices) (hstatus : inv.status ≠ InvoiceStatus.paid) :
      Step db (markAsPaid db inv.id inv.total_amount today)
  | submitRequest (db : DB) (inv : Invoice) (requestedBy : ℕ) (edits : List ItemEdit)
      (newRequestId : ℕ) (now : ℤ)
      (hmem : inv ∈ db.invoices) (hstatus : inv.status ≠ InvoiceStatus.paid) :
      Step db (submitEditRequest db inv.id requestedBy
        (applyEdits ((rowsOf db inv.id).map ItemRow.toLineItem) edits) newRequestId now)
  | approveRequest (db : DB) (q : EditRequest) (now : ℤ)
      (hmem : q ∈ db.edit_requests) (hpending : q.status = RequestStatus.pending)
      (hinv : ∃ inv ∈ db.invoices, inv.id = q.invoice_id) :
      Step db (approveEditRequest db q.id q.invoice_id q.requested_items now noFailure)
  | rejectRequest (db : DB) (q : EditRequest) (now : ℤ)
      (hmem : q ∈ db.edit_requests) (hpending : q.status = RequestStatus.pending) :
      Step db (rejectEditRequest db q.id now)

/-- States reachable from the empty database by successful dashboard actions. -/
def Reachable (db : DB) : Prop :=
  Relation.ReflTransGen Step emptyDB db

/-! ### List helper lemmas -/

theorem foldl_add_map {α : Type} (g : α → ℚ) :
    ∀ (l : List α) (s : ℚ), l.foldl (fun acc x => acc + g x) s = s + (l.map g).sum := by
  intro l
  induction l with
  | nil => intro s; simp
  | cons hd tl ih =>
    intro s
    simp only [List.foldl_cons, List.map_cons, List.sum_cons, ih]
    ring

theorem invoiceFormTotal_eq_sum (items : List InputItem) :
    invoiceFormTotal items = (items.map (fun it => it.quantity * it.unit_price)).sum := by
  simpa using foldl_add_map (fun it : InputItem => it.quantity * it.unit_price) items 0

theorem requestedTotal_eq_sum (items : List LineItem) :
    requestedTotal items = (items.map (fun it => it.total_price)).sum := by
  simpa using foldl_add_map (fun it : LineItem => it.total_price) items 0

theorem requestedTotal_of_consistent (items : List LineItem)
    (h : ∀ it ∈ items, it.consistent) :
    requestedTotal items = itemsQuantityPriceSum items := by
  rw [requestedTotal_eq_sum, itemsQuantityPriceSum]
  congr 1
  exact List.map_congr_left (fun it hit => h it hit)

theorem updateEditedItem_consistent (items : List LineItem)
    (h : ∀ it ∈ items, it.consistent) (i : ℕ) (f : EditField) (v : ℚ) :
    ∀ it ∈ updateEditedItem items i f v, it.consistent := by
  induction items generalizing i with
  | nil => simp [updateEditedItem]
  | cons hd tl ih =>
    cases i with
    | zero =>
      cases f with
      | quantity =>
        intro it hit
        rcases List.mem_cons.mp hit with hh | ht
        · subst hh; rfl
        · exact h it (List.mem_cons_of_mem hd ht)
      | unit_price =>
        intro it hit
        rcases List.mem_cons.mp hit with hh | ht
        · subst hh; rfl
        · exact h it (List.mem_cons_of_mem hd ht)
    | succ n =>
      intro it hit
      rcases List.mem_cons.mp hit with hh | ht
      · rw [hh]; exact h hd (List.mem_cons_self hd tl)
      · exact ih (fun x hx => h x (List.mem_cons_of_mem hd hx)) n it ht

theorem applyEdits_consistent (items : List LineItem) (edits : List ItemEdit)
    (h : ∀ it ∈ items, it.consistent) :
    ∀ it ∈ applyEdits items edits, it.consistent := by
  induction edits generalizing items with
  | nil => simpa [applyEdits] using h
  | cons e rest ih =>
    simpa [applyEdits, List.foldl_cons] using
      ih (updateEditedItem items e.index e.field e.value)
        (updateEditedItem_consistent items h e.index e.field e.value)

/-! ### Filter lemmas on invoice_items rows -/

theorem filter_rows_eq_self (l : List ItemRow) (nid : ℕ) (h : ∀ r ∈ l, r.invoice_id = nid) :
    l.filter (fun r => decide (r.invoice_id = nid)) = l := by
  refine List.filter_eq_self.mpr ?_
  intro r hr
  simpa using h r hr

theorem filter_rows_eq_nil (l : List ItemRow) (nid i : ℕ)
    (h : ∀ r ∈ l, r.invoice_id = nid) (hne : i ≠ nid) :
    l.filter (fun r => decide (r.invoice_id = i)) = [] := by
  refine List.filter_eq_nil_iff.mpr ?_
  intro r hr
  simp only [decide_eq_true_eq]
  rw [h r hr]
  exact fun hi => hne hi.symm

theorem filter_del_then_eq (l : List ItemRow) (invId i : ℕ) (hne : i ≠ invId) :
    (l.filter (fun r => decide (r.invoice_id ≠ invId))).filter
        (fun r => decide (r.invoice_id = i)) =
      l.filter (fun r => decide (r.invoice_id = i)) := by
  rw [List.filter_filter]
  refine List.filter_congr ?_
  intro r _
  by_cases hi : r.invoice_id = i
  · simp [hi, hne]
  · simp [hi]

theorem filter_del_then_same (l : List ItemRow) (invId : ℕ) :
    (l.filter (fun r => decide (r.invoice_id ≠ invId))).filter
        (fun r => decide (r.invoice_id = invId)) = [] := by
  rw [List.filter_filter]
  refine List.filter_eq_nil_iff.mpr ?_
  intro r _
  simp

/-! ### Invariant preservation through each dashboard action -/

theorem inv_empty : Inv emptyDB := by
  constructor <;> simp [emptyDB]

theorem addCustomer_ledger_unchanged (db : DB) (businessId : ℕ)
    (phone name email address : String) (creditLimit : ℚ) (terms : ℤ) (newCustomerId : ℕ) :
    (handleAddCustomer db businessId phone name email address creditLimit terms
        newCustomerId).invoices = db.invoices ∧
      (handleAddCustomer db businessId phone name email address creditLimit terms
        newCustomerId).invoice_items = db.invoice_items ∧
      (handleAddCustomer db businessId phone name email address creditLimit terms
        newCustomerId).edit_requests = db.edit_requests := by
  simp only [handleAddCustomer]
  cases List.find? (fun c => decide (c.phone_number = formatPhone phone)) db.customers <;>
    exact ⟨rfl, rfl, rfl⟩

theorem inv_addCustomer (db : DB) (businessId : ℕ) (phone name email address : String)
    (creditLimit : ℚ) (terms : ℤ) (newCustomerId : ℕ) (h : Inv db) :
    Inv (handleAddCustomer db businessId phone name email address creditLimit terms
      newCustomerId) := by
  obtain ⟨hi, hr, hq⟩ := addCustomer_ledger_unchanged db businessId phone name email address
    creditLimit terms newCustomerId
  constructor
  · rw [hr]; exact h.rows
  · intro inv hinv
    rw [hi] at hinv
    simpa only [ledgerSum, rowsOf, hr] using h.totals inv hinv
  · rw [hq]; exact h.requests
  · intro r hrr
    rw [hr] at hrr
    obtain ⟨inv, hinv, hid⟩ := h.owned r hrr
    exact ⟨inv, by rw [hi]; exact hinv, hid⟩

theorem inv_createInvoice (db : DB) (businessId customerId : ℕ) (invoiceDate : ℤ)
    (items : List InputItem) (newInvoiceId : ℕ) (invoiceNumber : String)
    (h : Inv db) (hfresh : ∀ inv ∈ db.invoices, inv.id ≠ newInvoiceId) :
    Inv (handleCreateInvoice db businessId customerId invoiceDate items newInvoiceId
      invoiceNumber) := by
  have hrowfresh : ∀ r ∈ db.invoice_items, r.invoice_id ≠ newInvoiceId := by
    intro r hr
    obtain ⟨inv, hinv, hid⟩ := h.owned r hr
    rw [← hid]
    exact hfresh inv hinv
  have hnewids : ∀ r ∈ items.map (fun it => ItemRow.mk newInvoiceId it.item_name it.quantity
      it.unit_price (it.quantity * it.unit_price)), r.invoice_id = newInvoiceId := by
    intro r hr
    obtain ⟨it, _, rfl⟩ := List.mem_map.mp hr
    rfl
  constructor
  · intro r hr
    rcases List.mem_append.mp hr with hold | hnew
    · exact h.rows r hold
    · obtain ⟨it, _, rfl⟩ := List.mem_map.mp hnew
      rfl
  · intro inv hinv
    rcases List.mem_append.mp hinv with hold | hnew
    · have htot := h.totals inv hold
      have hne : inv.id ≠ newInvoiceId := hfresh inv hold
      simp only [handleCreateInvoice, ledgerSum, rowsOf] at htot ⊢
      rw [List.filter_append, filter_rows_eq_nil _ newInvoiceId inv.id hnewids hne,
        List.append_nil]
      exact htot
    · simp only [List.mem_singleton] at hnew
      subst hnew
      simp only [handleCreateInvoice, ledgerSum, rowsOf]
      rw [List.filter_append]
      rw [List.filter_eq_nil_iff.mpr (fun r hr => by simpa using hrowfresh r hr)]
      rw [filter_rows_eq_self _ newInvoiceId hnewids, List.nil_append, List.map_map,
        invoiceFormTotal_eq_sum]
      exact congrArg List.sum (List.map_congr_left fun it _ => rfl)
  · intro q hq it hit
    exact h.requests q hq it hit
  · intro r hr
    rcases List.mem_append.mp hr with hold | hnew
    · obtain ⟨inv, hinv, hid⟩ := h.owned r hold
      exact ⟨inv, List.mem_append_left _ hinv, hid⟩
    · refine ⟨_, List.mem_append_right _ (List.mem_singleton_self _), ?_⟩
      exact (hnewids r hnew).symm

theorem markAsPaid_fields (db : DB) (invoiceId : ℕ) (amt : ℚ) (today : ℤ) :
    (markAsPaid db invoiceId amt today).invoice_items = db.invoice_items ∧
      (markAsPaid db invoiceId amt today).edit_requests = db.edit_requests ∧
      (markAsPaid db invoiceId amt today).invoices =
        db.invoices.map (fun inv : Invoice =>
          if inv.id = invoiceId then
            { inv with status := InvoiceStatus.paid, paid_amount := amt }
          else inv) :=
  ⟨rfl, rfl, rfl⟩

theorem inv_markAsPaid (db : DB) (invoiceId : ℕ) (amt : ℚ) (today : ℤ) (h : Inv db) :
    Inv (markAsPaid db invoiceId amt today) := by
  obtain ⟨hitems, hreq, hinvs⟩ := markAsPaid_fields db invoiceId amt today
  constructor
  · rw [hitems]; exact h.rows
  · intro inv hinv
    rw [hinvs] at hinv
    obtain ⟨inv0, hmem, rfl⟩ := List.mem_map.mp hinv
    have htot := h.totals inv0 hmem
    simp only [ledgerSum, rowsOf, hitems] at htot ⊢
    by_cases hc : inv0.id = invoiceId <;> simp [hc, htot]
  · rw [hreq]; exact h.requests
  · intro r hr
    rw [hitems] at hr
    obtain ⟨inv0, hmem, hid⟩ := h.owned r hr
    rw [hinvs]
    refine ⟨_, List.mem_map_of_mem _ hmem, ?_⟩
    dsimp only
    split <;> exact hid

theorem submit_fields (db : DB) (invoiceId requestedBy : ℕ) (editedItems : List LineItem)
    (newRequestId : ℕ) (now : ℤ) :
    (submitEditRequest db invoiceId requestedBy editedItems newRequestId now).invoices =
        db.invoices ∧
      (submitEditRequest db invoiceId requestedBy editedItems newRequestId now).invoice_items =
        db.invoice_items ∧
      (submitEditRequest db invoiceId requestedBy editedItems newRequestId now).edit_requests =
        db.edit_requests ++
          [{ id := newRequestId, invoice_id := invoiceId, requested_by := requestedBy,
             original_items := (rowsOf db invoiceId).map ItemRow.toLineItem,
             requested_items := editedItems, status := RequestStatus.pending,
             created_at := now, reviewed_at := none }] :=
  ⟨rfl, rfl, rfl⟩

theorem inv_submit (db : DB) (invoiceId requestedBy : ℕ) (editedItems : List LineItem)
    (newRequestId : ℕ) (now : ℤ) (h : Inv db)
    (hcons : ∀ it ∈ editedItems, it.consistent) :
    Inv (submitEditRequest db invoiceId requestedBy editedItems newRequestId now) := by
  obtain ⟨hi, hr, hq⟩ := submit_fields db invoiceId requestedBy editedItems newRequestId now
  constructor
  · rw [hr]; exact h.rows
  · intro inv hinv
    rw [hi] at hinv
    simpa only [ledgerSum, rowsOf, hr] using h.totals inv hinv
  · intro q hq2 it hit
    rw [hq] at hq2
    rcases List.mem_append.mp hq2 with hold | hnew
    · exact h.requests q hold it hit
    · simp only [List.mem_singleton] at hnew
      subst hnew
      exact hcons it hit
  · intro r hrr
    rw [hr] at hrr
    obtain ⟨inv, hinv, hid⟩ := h.owned r hrr
    rw [hi]
    exact ⟨inv, hinv, hid⟩

theorem reject_fields (db : DB) (requestId : ℕ) (now : ℤ) :
    (rejectEditRequest db requestId now).invoices = db.invoices ∧
      (rejectEditRequest db requestId now).invoice_items = db.invoice_items ∧
      (rejectEditRequest db requestId now).payments = db.payments ∧
      (rejectEditRequest db requestId now).edit_requests =
        db.edit_requests.map (fun r : EditRequest =>
          if r.id = requestId then
            { r with status := RequestStatus.rejected, reviewed_at := some now }
          else r) :=
  ⟨rfl, rfl, rfl, rfl⟩

theorem inv_reject (db : DB) (requestId : ℕ) (now : ℤ) (h : Inv db) :
    Inv (rejectEditRequest db requestId now) := by
  obtain ⟨hi, hr, _, hq⟩ := reject_fields db requestId now
  constructor
  · rw [hr]; exact h.rows
  · intro inv hinv
    rw [hi] at hinv
    simpa only [ledgerSum, rowsOf, hr] using h.totals inv hinv
  · intro q hq2 it hit
    rw [hq] at hq2
    obtain ⟨q0, hmem, rfl⟩ := List.mem_map.mp hq2
    have hit0 : it ∈ q0.requested_items := by
      by_cases hc : q0.id = requestId
      · simpa [hc] using hit
      · simpa [hc] using hit
    exact h.requests q0 hmem it hit0
  · intro r hrr
    rw [hr] at hrr
    obtain ⟨inv, hinv, hid⟩ := h.owned r hrr
    rw [hi]
    exact ⟨inv, hinv, hid⟩

theorem approve_success_fields (db : DB) (requestId invoiceId : ℕ)
    (requestedItems : List LineItem) (now : ℤ) :
    (approveEditRequest db requestId invoiceId requestedItems now noFailure).invoice_items =
        db.invoice_items.filter (fun r => decide (r.invoice_id ≠ invoiceId)) ++
          requestedItems.map (fun it =>
            ItemRow.mk invoiceId it.item_name it.quantity it.unit_price it.total_price) ∧
      (approveEditRequest db requestId invoiceId requestedItems now noFailure).invoices =
        db.invoices.map (fun inv : Invoice =>
          if inv.id = invoiceId then
            { inv with total_amount := requestedTotal requestedItems, updated_at := some now }
          else inv) ∧
      (approveEditRequest db requestId invoiceId requestedItems now noFailure).edit_requests =
        db.edit_requests.map (fun r : EditRequest =>
          if r.id = requestId then
            { r with status := RequestStatus.approved, reviewed_at := some now }
          else r) ∧
      (approveEditRequest db requestId invoiceId requestedItems now noFailure).payments =
        db.payments :=
  ⟨rfl, rfl, rfl, rfl⟩

theorem inv_approve (db : DB) (requestId invoiceId : ℕ) (requestedItems : List LineItem)
    (now : ℤ) (h : Inv db) (hcons : ∀ it ∈ requestedItems, it.consistent)
    (hown : ∃ inv ∈ db.invoices, inv.id = invoiceId) :
    Inv (approveEditRequest db requestId invoiceId requestedItems now noFailure) := by
  obtain ⟨hr, hi, hq, _⟩ := approve_success_fields db requestId invoiceId requestedItems now
  have hnewids : ∀ r ∈ requestedItems.map (fun it =>
      ItemRow.mk invoiceId it.item_name it.quantity it.unit_price it.total_price),
      r.invoice_id = invoiceId := by
    intro r hr2
    obtain ⟨it, _, rfl⟩ := List.mem_map.mp hr2
    rfl
  constructor
  · intro r hr2
    rw [hr] at hr2
    rcases List.mem_append.mp hr2 with hold | hnew
    · exact h.rows r (List.mem_of_mem_filter hold)
    · obtain ⟨it, hit, rfl⟩ := List.mem_map.mp hnew
      exact hcons it hit
  · intro inv hinv
    rw [hi] at hinv
    obtain ⟨inv0, hmem, rfl⟩ := List.mem_map.mp hinv
    by_cases hc : inv0.id = invoiceId
    · simp only [ledgerSum, rowsOf, hr, hc, if_pos]
      simp only [List.filter_append, filter_del_then_same,
        filter_rows_eq_self _ invoiceId hnewids, List.nil_append, List.map_map]
      rw [requestedTotal_of_consistent requestedItems hcons, itemsQuantityPriceSum]
      exact congrArg List.sum (List.map_congr_left fun it _ => rfl)
    · have htot := h.totals inv0 hmem
      simp only [ledgerSum, rowsOf, hr, hc, if_neg, not_false_iff]
      simp only [List.filter_append, filter_del_then_eq db.invoice_items invoiceId inv0.id hc,
        filter_rows_eq_nil _ invoiceId inv0.id hnewids hc, List.append_nil]
      simpa only [ledgerSum, rowsOf] using htot
  · intro q hq2 it hit
    rw [hq] at hq2
    obtain ⟨q0, hmem, rfl⟩ := List.mem_map.mp hq2
    have hit0 : it ∈ q0.requested_items := by
      by_cases hc : q0.id = requestId
      · simpa [hc] using hit
      · simpa [hc] using hit
    exact h.requests q0 hmem it hit0
  · intro r hr2
    rw [hr] at hr2
    rw [hi]
    rcases List.mem_append.mp hr2 with hold | hnew
    · obtain ⟨inv0, hmem, hid⟩ := h.owned r (List.mem_of_mem_filter hold)
      refine ⟨_, List.mem_map_of_mem _ hmem, ?_⟩
      dsimp only
      split <;> exact hid
    · obtain ⟨inv0, hmem, hid⟩ := hown
      refine ⟨_, List.mem_map_of_mem _ hmem, ?_⟩
      rw [hnewids r hnew]
      split <;> exact hid

/-- The items shown in the customer edit modal (the invoice's stored rows)
are consistent whenever the stored rows are. -/
theorem modal_items_consistent (db : DB) (invId : ℕ) (h : Inv db) :
    ∀ it ∈ (rowsOf db invId).map ItemRow.toLineItem, it.consistent := by
  intro it hit
  obtain ⟨r, hr, rfl⟩ := List.mem_map.mp hit
  exact h.rows r (List.mem_of_mem_filter hr)

theorem step_preserves {d d' : DB} (hs : Step d d') (h : Inv d) : Inv d' := by
  cases hs with
  | addCustomer businessId phone name email address creditLimit terms newCustomerId =>
    exact inv_addCustomer d businessId phone name email address creditLimit terms
      newCustomerId h
  | createInvoice businessId customerId invoiceDate items newInvoiceId invoiceNumber hcust
      hfresh =>
    exact inv_createInvoice d businessId customerId invoiceDate items newInvoiceId
      invoiceNumber h hfresh
  | markPaid inv today hmem hstatus =>
    exact inv_markAsPaid d inv.id inv.total_amount today h
  | submitRequest inv requestedBy edits newRequestId now hmem hstatus =>
    exact inv_submit d inv.id requestedBy _ newRequestId now h
      (applyEdits_consistent _ edits (modal_items_consistent d inv.id h))
  | approveRequest q now hmem hpending hinv =>
    exact inv_approve d q.id q.invoice_id q.requested_items now h
      (h.requests q hmem) hinv
  | rejectRequest q now hmem hpending =>
    exact inv_reject d q.id now h

theorem reachable_inv {db : DB} (h : Reachable db) : Inv db := by
  induction h with
  | refl => exact inv_empty
  | tail _ hstep ih => exact step_preserves hstep ih

/-! ### Helper lemmas about the shapes of the individual writes -/

theorem mapped_total (l : List Invoice) (invoiceId : ℕ) (T : ℚ) (now : ℤ) :
    ∀ inv ∈ l.map (fun inv : Invoice =>
        if inv.id = invoiceId then
          { inv with total_amount := T, updated_at := some now }
        else inv),
      inv.id = invoiceId → inv.total_amount = T := by
  intro inv hm hid
  obtain ⟨inv0, _, rfl⟩ := List.mem_map.mp hm
  by_cases hc : inv0.id = invoiceId
  · rw [if_pos hc]
  · rw [if_neg hc] at hid
    exact absurd hid hc

theorem mapped_request_status (l : List EditRequest) (requestId : ℕ) (st : RequestStatus)
    (now : ℤ) :
    ∀ r ∈ l.map (fun r : EditRequest =>
        if r.id = requestId then { r with status := st, reviewed_at := some now } else r),
      r.id = requestId → r.status = st ∧ r.reviewed_at = some now := by
  intro r hm hid
  obtain ⟨r0, _, rfl⟩ := List.mem_map.mp hm
  by_cases hc : r0.id = requestId
  · rw [if_pos hc]
    exact ⟨rfl, rfl⟩
  · rw [if_neg hc] at hid
    exact absurd hid hc

theorem mapped_paid (l : List Invoice) (invoiceId : ℕ) (amt : ℚ) :
    ∀ i ∈ l.map (fun inv : Invoice =>
        if inv.id = invoiceId then
          { inv with status := InvoiceStatus.paid, paid_amount := amt }
        else inv),
      i.id = invoiceId → i.status = InvoiceStatus.paid ∧ i.paid_amount = amt := by
  intro i hm hid
  obtain ⟨inv0, _, rfl⟩ := List.mem_map.mp hm
  by_cases hc : inv0.id = invoiceId
  · rw [if_pos hc]
    exact ⟨rfl, rfl⟩
  · rw [if_neg hc] at hid
    exact absurd hid hc

theorem approve_rows_eq (db : DB) (requestId invoiceId : ℕ) (items : List LineItem)
    (now : ℤ) :
    rowsOf (approveEditRequest db requestId invoiceId items now noFailure) invoiceId =
      items.map (fun it =>
        ItemRow.mk invoiceId it.item_name it.quantity it.unit_price it.total_price) := by
  obtain ⟨hr, _, _, _⟩ := approve_success_fields db requestId invoiceId items now
  have hnewids : ∀ r ∈ items.map (fun it =>
      ItemRow.mk invoiceId it.item_name it.quantity it.unit_price it.total_price),
      r.invoice_id = invoiceId := by
    intro r hr2
    obtain ⟨it, _, rfl⟩ := List.mem_map.mp hr2
    rfl
  simp only [rowsOf, hr, List.filter_append, filter_del_then_same,
    filter_rows_eq_self _ invoiceId hnewids, List.nil_append]

theorem approve_rows_toLineItem (db : DB) (requestId invoiceId : ℕ) (items : List LineItem)
    (now : ℤ) :
    (rowsOf (approveEditRequest db requestId invoiceId items now noFailure) invoiceId).map
      ItemRow.toLineItem = items := by
  rw [approve_rows_eq db requestId invoiceId items now, List.map_map]
  exact (List.map_congr_left fun it _ => rfl).trans (List.map_id items)

/-! ### Concrete sample data used by witnesses and counterexamples -/

def sampleItem : LineItem := ⟨("Widget"), 2, 10, 20⟩

def sampleReqItem : LineItem := ⟨("Widget"), 3, 10, 30⟩

def sampleInvoice : Invoice := ⟨1, 1, 2, ("INV-1"), 0, 30, 20, 0, InvoiceStatus.sent, none⟩

def sampleRow : ItemRow := ⟨1, ("Widget"), 2, 10, 20⟩

def sampleDB : DB :=
  { emptyDB with invoices := [sampleInvoice], invoice_items := [sampleRow] }

/-! ### Claim C1 -/

/-- Claim C1: for every invoice, after every successful mutating operation
(invoice creation, marking paid, approving an edit request — together with
the other dashboard actions, starting from an empty database), the
invoice's stored total_amount equals the sum over its stored line items of
quantity × unit_price. -/
theorem C1_total_matches_items (db : DB) (h : Reachable db) :
    ∀ inv ∈ db.invoices, inv.total_amount = ledgerSum db inv.id :=
  (reachable_inv h).totals

def dbW1 : DB :=
  handleAddCustomer emptyDB 1 ("9876543210") ("Asha") ("") ("") 0 30 2

def dbW2 : DB :=
  handleCreateInvoice dbW1 1 2 0 [⟨("Widget"), 2, 10⟩] 5 ("INV-1")

theorem reachable_dbW2 : Reachable dbW2 := by
  have h1 : Step emptyDB dbW1 :=
    Step.addCustomer emptyDB 1 ("9876543210") ("Asha") ("") ("") 0 30 2
  have h2 : Step dbW1 dbW2 :=
    Step.createInvoice dbW1 1 2 0 [⟨("Widget"), 2, 10⟩] 5 ("INV-1") (by decide) (by decide)
  exact Relation.ReflTransGen.tail (Relation.ReflTransGen.single h1) h2

/-- Witness for C1: a concrete database reached by adding a customer and
creating an invoice satisfies the total invariant (and has an invoice). -/
theorem C1_total_matches_items_witness :
    dbW2.invoices ≠ [] ∧ ∀ inv ∈ dbW2.invoices, inv.total_amount = ledgerSum dbW2 inv.id :=
  ⟨by decide, C1_total_matches_items dbW2 reachable_dbW2⟩

/-! ### Claim C10 -/

/-- Claim C10: the edit-request list loadData produces contains exactly the
requests whose persisted status is pending and whose invoice_id belongs to
one of the business's invoices. -/
theorem C10_loadData_filter (db : DB) (businessId : ℕ) (q : EditRequest) :
    q ∈ pendingRequestsFor db businessId ↔
      q ∈ db.edit_requests ∧ q.status = RequestStatus.pending ∧
        ∃ inv ∈ db.invoices, inv.business_id = businessId ∧ inv.id = q.invoice_id := by
  simp only [pendingRequestsFor, List.mem_filter, decide_eq_true_eq, businessInvoiceIds,
    List.mem_map, List.mem_filter]
  aesop

/-! ### Claim C8 -/

/-- Claim C8: for a pending edit request, reject sets the request's status
to rejected with a review timestamp and leaves the invoices, line items and
payments tables entirely unchanged. -/
theorem C8_reject_frame (db : DB) (q : EditRequest) (now : ℤ)
    (hmem : q ∈ db.edit_requests) (hpending : q.status = RequestStatus.pending) :
    (rejectEditRequest db q.id now).invoices = db.invoices ∧
      (rejectEditRequest db q.id now).invoice_items = db.invoice_items ∧
      (rejectEditRequest db q.id now).payments = db.payments ∧
      ∀ r ∈ (rejectEditRequest db q.id now).edit_requests, r.id = q.id →
        r.status = RequestStatus.rejected ∧ r.reviewed_at = some now := by
  obtain ⟨hi, hr, hp, hq2⟩ := reject_fields db q.id now
  refine ⟨hi, hr, hp, ?_⟩
  rw [hq2]
  exact mapped_request_status db.edit_requests q.id RequestStatus.rejected now

def c8Req : EditRequest :=
  ⟨7, 1, 2, [sampleItem], [sampleReqItem], RequestStatus.pending, 5, none⟩

def c8Db : DB := { sampleDB with edit_requests := [c8Req] }

/-- Witness for C8 at a concrete pending request. -/
theorem C8_reject_frame_witness :
    (rejectEditRequest c8Db 7 9).invoices = c8Db.invoices ∧
      (rejectEditRequest c8Db 7 9).invoice_items = c8Db.invoice_items ∧
      (rejectEditRequest c8Db 7 9).payments = c8Db.payments ∧
      ∀ r ∈ (rejectEditRequest c8Db 7 9).edit_requests, r.id = 7 →
        r.status = RequestStatus.rejected ∧ r.reviewed_at = some 9 :=
  C8_reject_frame c8Db c8Req 9 (by decide) (by decide)

instance (r : ItemRow) : Decidable r.consistent :=
  inferInstanceAs (Decidable (r.total_price = r.quantity * r.unit_price))

instance (it : LineItem) : Decidable it.consistent :=
  inferInstanceAs (Decidable (it.total_price = it.quantity * it.unit_price))

/-! ### Claim C7 -/

/-- Claim C7: for a non-paid invoice, submitting an edit request with items
A and then approving that request yields an invoice whose line items equal
A and whose total equals the sum over A of quantity × unit_price (A being
built by the edit modal, its items carry total_price = quantity × unit_price). -/
theorem C7_round_trip (db : DB) (inv : Invoice) (requestedBy newReqId : ℕ)
    (A : List LineItem) (t1 t2 : ℤ)
    (hmem : inv ∈ db.invoices) (hnotpaid : inv.status ≠ InvoiceStatus.paid)
    (hA : ∀ it ∈ A, it.consistent) :
    (∃ q ∈ (submitEditRequest db inv.id requestedBy A newReqId t1).edit_requests,
        q.id = newReqId ∧ q.requested_items = A ∧ q.status = RequestStatus.pending) ∧
      (rowsOf (approveEditRequest (submitEditRequest db inv.id requestedBy A newReqId t1)
          newReqId inv.id A t2 noFailure) inv.id).map ItemRow.toLineItem = A ∧
      ∀ inv2 ∈ (approveEditRequest (submitEditRequest db inv.id requestedBy A newReqId t1)
          newReqId inv.id A t2 noFailure).invoices,
        inv2.id = inv.id → inv2.total_amount = itemsQuantityPriceSum A := by
  refine ⟨?_, ?_, ?_⟩
  · obtain ⟨_, _, hq⟩ := submit_fields db inv.id requestedBy A newReqId t1
    rw [hq]
    exact ⟨_, List.mem_append_right _ (List.mem_singleton_self _), rfl, rfl, rfl⟩
  · exact approve_rows_toLineItem (submitEditRequest db inv.id requestedBy A newReqId t1)
      newReqId inv.id A t2
  · obtain ⟨_, hi, _, _⟩ :=
      approve_success_fields (submitEditRequest db inv.id requestedBy A newReqId t1)
        newReqId inv.id A t2
    rw [hi]
    intro inv2 hm hid
    exact (mapped_total _ inv.id (requestedTotal A) t2 inv2 hm hid).trans
      (requestedTotal_of_consistent A hA)

/-- Witness for C7 on a concrete non-paid invoice. -/
theorem C7_round_trip_witness :
    (∃ q ∈ (submitEditRequest sampleDB 1 2 [sampleReqItem] 7 5).edit_requests,
        q.id = 7 ∧ q.requested_items = [sampleReqItem] ∧ q.status = RequestStatus.pending) ∧
      (rowsOf (approveEditRequest (submitEditRequest sampleDB 1 2 [sampleReqItem] 7 5)
          7 1 [sampleReqItem] 9 noFailure) 1).map ItemRow.toLineItem = [sampleReqItem] ∧
      ∀ inv2 ∈ (approveEditRequest (submitEditRequest sampleDB 1 2 [sampleReqItem] 7 5)
          7 1 [sampleReqItem] 9 noFailure).invoices,
        inv2.id = 1 → inv2.total_amount = itemsQuantityPriceSum [sampleReqItem] :=
  C7_round_trip sampleDB sampleInvoice 2 7 [sampleReqItem] 5 9 (by decide) (by decide)
    (by
      intro it hit
      simp only [List.mem_singleton] at hit
      subst hit
      show (30 : ℚ) = 3 * 10
      norm_num)

/-! ### Claim C2 -/

def c2Req : EditRequest :=
  ⟨7, 1, 2, [sampleItem], [sampleReqItem], RequestStatus.pending, 5, none⟩

def c2Db : DB := { sampleDB with edit_requests := [c2Req] }

def c2Post : DB :=
  approveEditRequest c2Db 7 1 [sampleReqItem] 9 ⟨false, true, false, false⟩

/-- Counterexample to claim C2: if the insert step of approveEditRequest
fails after the delete succeeded, the invoice does not retain its original
items (they stay deleted), the total is still set to the requested sum, and
the request does not remain pending — it is marked approved. -/
theorem C2_counterexample :
    rowsOf c2Db 1 ≠ [] ∧ rowsOf c2Post 1 = [] ∧
      (invoiceById c2Post 1).map Invoice.total_amount = some 30 ∧
      (requestById c2Post 7).map EditRequest.status = some RequestStatus.approved := by
  refine ⟨by decide, by decide, ?_, by decide⟩
  norm_num [c2Post, c2Db, sampleDB, c2Req, sampleInvoice, sampleRow, sampleItem,
    sampleReqItem, emptyDB, approveEditRequest, requestedTotal, invoiceById, List.find?,
    rowsOf]

theorem approve_insertFail_fields (db : DB) (requestId invoiceId : ℕ)
    (items : List LineItem) (now : ℤ) :
    (approveEditRequest db requestId invoiceId items now
          ⟨false, true, false, false⟩).invoice_items =
        db.invoice_items.filter (fun r => decide (r.invoice_id ≠ invoiceId)) ∧
      (approveEditRequest db requestId invoiceId items now
          ⟨false, true, false, false⟩).invoices =
        db.invoices.map (fun inv : Invoice =>
          if inv.id = invoiceId then
            { inv with total_amount := requestedTotal items, updated_at := some now }
          else inv) ∧
      (approveEditRequest db requestId invoiceId items now
          ⟨false, true, false, false⟩).edit_requests =
        db.edit_requests.map (fun r : EditRequest =>
          if r.id = requestId then
            { r with status := RequestStatus.approved, reviewed_at := some now }
          else r) :=
  ⟨rfl, rfl, rfl⟩

/-- Claim C2 amended: approveEditRequest is not all-or-nothing — every
write runs regardless of earlier failures.  If the item-insert step fails
after the delete succeeded, the invoice is left with no line items while
its total is still set to the requested sum and the request is still
marked approved; the partial state is visible. -/
theorem C2_no_rollback (db : DB) (requestId invoiceId : ℕ) (items : List LineItem)
    (now : ℤ) (f : ApproveFailure) (hf : f = ⟨false, true, false, false⟩) :
    rowsOf (approveEditRequest db requestId invoiceId items now f) invoiceId = [] ∧
      (∀ inv ∈ (approveEditRequest db requestId invoiceId items now f).invoices,
        inv.id = invoiceId → inv.total_amount = requestedTotal items) ∧
      ∀ r ∈ (approveEditRequest db requestId invoiceId items now f).edit_requests,
        r.id = requestId → r.status = RequestStatus.approved ∧ r.reviewed_at = some now := by
  subst hf
  obtain ⟨hr, hi, hq⟩ := approve_insertFail_fields db requestId invoiceId items now
  refine ⟨?_, ?_, ?_⟩
  · simp only [rowsOf, hr, filter_del_then_same]
  · rw [hi]
    exact mapped_total db.invoices invoiceId (requestedTotal items) now
  · rw [hq]
    exact mapped_request_status db.edit_requests requestId RequestStatus.approved now

/-- Witness for the amended C2 at a concrete pending request. -/
theorem C2_no_rollback_witness :
    rowsOf c2Post 1 = [] ∧
      (∀ inv ∈ c2Post.invoices, inv.id = 1 → inv.total_amount = requestedTotal [sampleReqItem]) ∧
      ∀ r ∈ c2Post.edit_requests, r.id = 7 →
        r.status = RequestStatus.approved ∧ r.reviewed_at = some 9 :=
  C2_no_rollback c2Db 7 1 [sampleReqItem] 9 ⟨false, true, false, false⟩ rfl

/-! ### Claim C3 -/

def c3Req : EditRequest :=
  ⟨7, 1, 2, [sampleItem], [sampleReqItem], RequestStatus.rejected, 5, some 6⟩

def c3Db : DB := { sampleDB with edit_requests := [c3Req] }

def c3Post : DB := approveEditRequest c3Db 7 1 [sampleReqItem] 9 noFailure

/-- Counterexample to claim C3: approve on a request whose status is
already rejected does not fail and does mutate the ledger — the invoice's
items and total change, and the terminal request's status changes again,
from rejected to approved, with a fresh review timestamp. -/
theorem C3_counterexample :
    (requestById c3Db 7).map EditRequest.status = some RequestStatus.rejected ∧
      (requestById c3Post 7).map EditRequest.status = some RequestStatus.approved ∧
      (requestById c3Post 7).map EditRequest.reviewed_at = some (some 9) ∧
      rowsOf c3Post 1 ≠ rowsOf c3Db 1 ∧
      (invoiceById c3Post 1).map Invoice.total_amount = some 30 := by
  refine ⟨by decide, by decide, by decide, by decide, ?_⟩
  norm_num [c3Post, c3Db, sampleDB, c3Req, sampleInvoice, sampleRow, sampleItem,
    sampleReqItem, emptyDB, approveEditRequest, noFailure, requestedTotal, invoiceById,
    List.find?]

/-- Claim C3 amended: approveEditRequest performs no status check — invoked
on a request whose status is already approved or rejected it still replaces
the invoice's line items with the requested items, still updates the total,
and sets the request's status to approved with a fresh review timestamp.
Only the dashboard's pending-only listing keeps terminal requests from
being re-reviewed. -/
theorem C3_no_status_guard (db : DB) (q : EditRequest) (now : ℤ)
    (hmem : q ∈ db.edit_requests) (hterm : q.status ≠ RequestStatus.pending) :
    (rowsOf (approveEditRequest db q.id q.invoice_id q.requested_items now noFailure)
        q.invoice_id).map ItemRow.toLineItem = q.requested_items ∧
      (∀ inv ∈ (approveEditRequest db q.id q.invoice_id q.requested_items now
          noFailure).invoices,
        inv.id = q.invoice_id → inv.total_amount = requestedTotal q.requested_items) ∧
      ∀ r ∈ (approveEditRequest db q.id q.invoice_id q.requested_items now
          noFailure).edit_requests,
        r.id = q.id → r.status = RequestStatus.approved ∧ r.reviewed_at = some now := by
  obtain ⟨_, hi, hq2, _⟩ :=
    approve_success_fields db q.id q.invoice_id q.requested_items now
  refine ⟨approve_rows_toLineItem db q.id q.invoice_id q.requested_items now, ?_, ?_⟩
  · rw [hi]
    exact mapped_total db.invoices q.invoice_id (requestedTotal q.requested_items) now
  · rw [hq2]
    exact mapped_request_status db.edit_requests q.id RequestStatus.approved now

/-- Witness for the amended C3 at a concrete rejected request. -/
theorem C3_no_status_guard_witness :
    (rowsOf c3Post 1).map ItemRow.toLineItem = [sampleReqItem] ∧
      (∀ inv ∈ c3Post.invoices, inv.id = 1 →
        inv.total_amount = requestedTotal [sampleReqItem]) ∧
      ∀ r ∈ c3Post.edit_requests, r.id = 7 →
        r.status = RequestStatus.approved ∧ r.reviewed_at = some 9 :=
  C3_no_status_guard c3Db c3Req 9 (by decide) (by decide)

/-! ### Claim C4 -/

def c4Db : DB :=
  { emptyDB with
      invoices := [⟨1, 1, 2, ("INV-1"), 0, 30, 20, 20, InvoiceStatus.paid, none⟩],
      invoice_items := [sampleRow],
      payments := [⟨1, 20, 3, ("Manual")⟩] }

def c4Post : DB := markAsPaid c4Db 1 20 9

/-- Counterexample to claim C4: markAsPaid on an already-paid invoice does
not fail — it succeeds and appends a second payment record. -/
theorem C4_counterexample :
    (invoiceById c4Db 1).map Invoice.status = some InvoiceStatus.paid ∧
      c4Db.payments.length = 1 ∧ c4Post.payments.length = 2 := by
  decide

/-- Claim C4 amended: markAsPaid performs no status check — on an
already-paid invoice the update succeeds (status stays paid, paid_amount is
set to the passed amount) and a second payments row is appended.  Only the
dashboard hiding the Mark Paid button for paid invoices prevents
double-recording. -/
theorem C4_no_paid_guard (db : DB) (inv : Invoice) (amount : ℚ) (today : ℤ)
    (hmem : inv ∈ db.invoices) (hpaid : inv.status = InvoiceStatus.paid) :
    (markAsPaid db inv.id amount today).payments =
        db.payments ++ [⟨inv.id, amount, today, ("Manual")⟩] ∧
      ∀ i ∈ (markAsPaid db inv.id amount today).invoices, i.id = inv.id →
        i.status = InvoiceStatus.paid ∧ i.paid_amount = amount := by
  obtain ⟨_, _, hinvs⟩ := markAsPaid_fields db inv.id amount today
  refine ⟨rfl, ?_⟩
  rw [hinvs]
  exact mapped_paid db.invoices inv.id amount

/-- Witness for the amended C4 at a concrete paid invoice. -/
theorem C4_no_paid_guard_witness :
    c4Post.payments = c4Db.payments ++ [⟨1, 20, 9, ("Manual")⟩] ∧
      ∀ i ∈ c4Post.invoices, i.id = 1 →
        i.status = InvoiceStatus.paid ∧ i.paid_amount = 20 :=
  C4_no_paid_guard c4Db ⟨1, 1, 2, ("INV-1"), 0, 30, 20, 20, InvoiceStatus.paid, none⟩ 20 9
    (by decide) (by decide)

/-! ### Claim C5 -/

def c5Db : DB :=
  { emptyDB with
      invoices := [⟨1, 1, 2, ("INV-1"), 0, 30, 20, 20, InvoiceStatus.paid, none⟩],
      invoice_items := [sampleRow] }

def c5Post : DB := submitEditRequest c5Db 1 2 [sampleReqItem] 7 5

/-- Counterexample to claim C5: submitEditRequest against a paid invoice
does not fail — it creates a pending edit-request record. -/
theorem C5_counterexample :
    (invoiceById c5Db 1).map Invoice.status = some InvoiceStatus.paid ∧
      c5Db.edit_requests.length = 0 ∧ c5Post.edit_requests.length = 1 ∧
      (requestById c5Post 7).map EditRequest.status = some RequestStatus.pending := by
  decide

/-- Claim C5 amended: submitEditRequest performs no invoice-status check —
even against a paid invoice it inserts a new pending edit-request record
(snapshotting the invoice's current items) and changes nothing else.  Only
the dashboard hiding the Request Edit button for paid invoices prevents
this. -/
theorem C5_no_paid_guard (db : DB) (inv : Invoice) (requestedBy : ℕ)
    (items : List LineItem) (newReqId : ℕ) (now : ℤ)
    (hmem : inv ∈ db.invoices) (hpaid : inv.status = InvoiceStatus.paid) :
    (submitEditRequest db inv.id requestedBy items newReqId now).edit_requests =
        db.edit_requests ++
          [{ id := newReqId, invoice_id := inv.id, requested_by := requestedBy,
             original_items := (rowsOf db inv.id).map ItemRow.toLineItem,
             requested_items := items, status := RequestStatus.pending,
             created_at := now, reviewed_at := none }] ∧
      (submitEditRequest db inv.id requestedBy items newReqId now).invoices =
        db.invoices ∧
      (submitEditRequest db inv.id requestedBy items newReqId now).invoice_items =
        db.invoice_items :=
  ⟨rfl, rfl, rfl⟩

/-- Witness for the amended C5 at a concrete paid invoice. -/
theorem C5_no_paid_guard_witness :
    c5Post.edit_requests =
        c5Db.edit_requests ++
          [{ id := 7, invoice_id := 1, requested_by := 2,
             original_items := (rowsOf c5Db 1).map ItemRow.toLineItem,
             requested_items := [sampleReqItem], status := RequestStatus.pending,
             created_at := 5, reviewed_at := none }] ∧
      c5Post.invoices = c5Db.invoices ∧
      c5Post.invoice_items = c5Db.invoice_items :=
  C5_no_paid_guard c5Db ⟨1, 1, 2, ("INV-1"), 0, 30, 20, 20, InvoiceStatus.paid, none⟩ 2
    [sampleReqItem] 7 5 (by decide) (by decide)

/-! ### Claim C6 -/

theorem create_fields (db : DB) (businessId customerId : ℕ) (invoiceDate : ℤ)
    (items : List InputItem) (newId : ℕ) (num : String) :
    (handleCreateInvoice db businessId customerId invoiceDate items newId num).invoices =
        db.invoices ++
          [{ id := newId, business_id := businessId, customer_id := customerId,
             invoice_number := num, invoice_date := invoiceDate,
             due_date := invoiceDate + jsOr (lookupTerms db businessId customerId) 30,
             total_amount := invoiceFormTotal items, paid_amount := 0,
             status := InvoiceStatus.sent, updated_at := none }] ∧
      (handleCreateInvoice db businessId customerId invoiceDate items newId
          num).invoice_items =
        db.invoice_items ++ items.map (fun it =>
          ItemRow.mk newId it.item_name it.quantity it.unit_price
            (it.quantity * it.unit_price)) :=
  ⟨rfl, rfl⟩

def c6Post : DB := handleCreateInvoice emptyDB 1 2 0 [] 5 ("INV-6")

def c6NegPost : DB := handleCreateInvoice emptyDB 1 2 0 [⟨("Widget"), -2, 10⟩] 6 ("INV-7")

/-- Counterexample to claim C6: handleCreateInvoice with an empty item list
does not fail with a validation error — it persists an invoice with total 0
and no line items; with a negative quantity it persists the invoice with a
negative total. -/
theorem C6_counterexample :
    c6Post.invoices.length = 1 ∧
      (invoiceById c6Post 5).map Invoice.total_amount = some 0 ∧
      rowsOf c6Post 5 = [] ∧
      c6NegPost.invoices.length = 1 ∧
      (invoiceById c6NegPost 6).map Invoice.total_amount = some (-20) := by
  refine ⟨by decide, by decide, by decide, by decide, ?_⟩
  norm_num [c6NegPost, handleCreateInvoice, invoiceFormTotal, invoiceById, List.find?,
    emptyDB, lookupTerms]

/-- Claim C6 amended: handleCreateInvoice performs no input validation —
for any item list, empty or containing negative quantities or prices, it
persists exactly one new invoice with total equal to the reduce over
quantity × unit_price and persists the given items as the invoice's rows. -/
theorem C6_no_validation (db : DB) (businessId customerId : ℕ) (invoiceDate : ℤ)
    (items : List InputItem) (newId : ℕ) (num : String)
    (hfresh : ∀ r ∈ db.invoice_items, r.invoice_id ≠ newId) :
    (handleCreateInvoice db businessId customerId invoiceDate items newId
        num).invoices.length = db.invoices.length + 1 ∧
      (∃ inv ∈ (handleCreateInvoice db businessId customerId invoiceDate items newId
          num).invoices,
        inv.id = newId ∧ inv.total_amount = invoiceFormTotal items ∧
          inv.status = InvoiceStatus.sent) ∧
      rowsOf (handleCreateInvoice db businessId customerId invoiceDate items newId num)
          newId =
        items.map (fun it =>
          ItemRow.mk newId it.item_name it.quantity it.unit_price
            (it.quantity * it.unit_price)) := by
  obtain ⟨hi, hr⟩ := create_fields db businessId customerId invoiceDate items newId num
  refine ⟨?_, ?_, ?_⟩
  · rw [hi, List.length_append]
    rfl
  · rw [hi]
    exact ⟨_, List.mem_append_right _ (List.mem_singleton_self _), rfl, rfl, rfl⟩
  · simp only [rowsOf, hr, List.filter_append]
    rw [List.filter_eq_nil_iff.mpr (fun r h2 => by simpa using hfresh r h2),
      List.nil_append]
    refine filter_rows_eq_self _ newId ?_
    intro r h2
    obtain ⟨it, _, rfl⟩ := List.mem_map.mp h2
    rfl

def c6wPost : DB := handleCreateInvoice emptyDB 1 2 0 [⟨("Widget"), 2, -5⟩] 5 ("INV-6")

/-- Witness for the amended C6: a negative unit price is accepted and
persisted. -/
theorem C6_no_validation_witness :
    c6wPost.invoices.length = emptyDB.invoices.length + 1 ∧
      (∃ inv ∈ c6wPost.invoices,
        inv.id = 5 ∧ inv.total_amount = invoiceFormTotal [⟨("Widget"), 2, -5⟩] ∧
          inv.status = InvoiceStatus.sent) ∧
      rowsOf c6wPost 5 = [⟨5, ("Widget"), 2, -5, 2 * -5⟩] :=
  C6_no_validation emptyDB 1 2 0 [⟨("Widget"), 2, -5⟩] 5 ("INV-6") (by decide)

/-! ### Claim C9 -/

def c9Db : DB := { emptyDB with business_customers := [⟨1, 2, 0, 0⟩] }

def c9Post : DB := handleCreateInvoice c9Db 1 2 100 [] 5 ("INV-9")

/-- Counterexample to claim C9: payment terms are read with JavaScript
`|| 30`, so a configured payment_terms_days of 0 is treated like an absent
row — the due date becomes the invoice date plus 30, not the invoice date
plus the configured 0. -/
theorem C9_counterexample :
    lookupTerms c9Db 1 2 = some 0 ∧
      (invoiceById c9Post 5).map Invoice.due_date = some 130 ∧
      (130 : ℤ) ≠ 100 + 0 := by
  decide

/-- Claim C9 amended: handleCreateInvoice computes the due date as the
invoice date plus the configured payment_terms_days when that value is
nonzero, and as the invoice date plus 30 when no terms row exists for the
business-customer pair or the configured value is 0 (the falsy default of
`|| 30`). -/
theorem C9_due_date (db : DB) (businessId customerId : ℕ) (invoiceDate : ℤ)
    (items : List InputItem) (newId : ℕ) (num : String) :
    ((lookupTerms db businessId customerId = none ∨
        lookupTerms db businessId customerId = some 0) →
      ∃ inv ∈ (handleCreateInvoice db businessId customerId invoiceDate items newId
          num).invoices, inv.id = newId ∧ inv.due_date = invoiceDate + 30) ∧
      ∀ t : ℤ, lookupTerms db businessId customerId = some t → t ≠ 0 →
        ∃ inv ∈ (handleCreateInvoice db businessId customerId invoiceDate items newId
            num).invoices, inv.id = newId ∧ inv.due_date = invoiceDate + t := by
  obtain ⟨hi, _⟩ := create_fields db businessId customerId invoiceDate items newId num
  constructor
  · intro hcase
    rw [hi]
    refine ⟨_, List.mem_append_right _ (List.mem_singleton_self _), rfl, ?_⟩
    rcases hcase with hnone | hzero
    · simp [jsOr, hnone]
    · simp [jsOr, hzero]
  · intro t ht htne
    rw [hi]
    refine ⟨_, List.mem_append_right _ (List.mem_singleton_self _), rfl, ?_⟩
    simp [jsOr, ht, htne]

def c9wDb : DB := { emptyDB with business_customers := [⟨1, 2, 0, 15⟩] }

/-- Witness for the amended C9 with configured payment terms of 15 days. -/
theorem C9_due_date_witness :
    ∃ inv ∈ (handleCreateInvoice c9wDb 1 2 100 [] 5 ("INV-9")).invoices,
      inv.id = 5 ∧ inv.due_date = 100 + 15 :=
  (C9_due_date c9wDb 1 2 100 [] 5 ("INV-9")).2 15 (by decide) (by decide)

end Surety
